import Mathlib

/-!
Verification development for the betadocs link-audit script
(src/scripts/audit-betadocs-links.py).

Strings are modelled as lists of characters (Python str values are
sequences of code points).  Each Python string primitive used by the
script is re-implemented below with the exact Python semantics
(str.split with a separator keeps empty fields, str.replace removes
every non-overlapping occurrence left to right, str.strip trims
whitespace on both ends).  The resolver, the existence checker, the
file-map construction, the link extractor and the main scan loop are
then direct transliterations of the script.
-/

namespace Audit

/-- Coercion from a Lean string literal to the character-list model. -/
def str (s : String) : List Char := s.data

/-- Python str.split with a one-character separator: splits at every
occurrence and keeps empty fields, so the result is always non-empty. -/
def splitChar (sep : Char) : List Char → List (List Char)
  | [] => [[]]
  | c :: rest =>
    match splitChar sep rest with
    | [] => [[]]
    | g :: gs => if c = sep then [] :: g :: gs else (c :: g) :: gs

/-- Python str.replace(pat, "") for a non-empty pattern: removes every
non-overlapping occurrence, scanning left to right.  The fuel argument
is an upper bound on the number of characters still to be inspected;
it starts at the length of the string, and every recursive call drops
at least one character, so the fuel never runs out. -/
def pyRemoveAux (pat : List Char) : Nat → List Char → List Char
  | 0, s => s
  | Nat.succ fuel, s =>
    match s with
    | [] => []
    | c :: rest =>
      if pat.isPrefixOf s then pyRemoveAux pat fuel (s.drop pat.length)
      else c :: pyRemoveAux pat fuel rest

/-- Python str.replace(pat, "") for a non-empty pattern. -/
def pyRemove (pat s : List Char) : List Char := pyRemoveAux pat s.length s

/-- Python str.strip() whitespace set: space, tab, newline, carriage
return, vertical tab, form feed. -/
def pyWs (c : Char) : Bool :=
  c = ' ' || c = '\t' || c = '\n' || c = '\r' || c = Char.ofNat 11 || c = Char.ofNat 12

/-- Python str.strip(): trim whitespace from both ends. -/
def pyStrip (s : List Char) : List Char :=
  ((s.dropWhile pyWs).reverse.dropWhile pyWs).reverse

/-- Python str.startswith on the character-list model. -/
def startsWithS (p : String) (s : List Char) : Bool := p.data.isPrefixOf s

/-- Python str.endswith on the character-list model. -/
def endsWithS (p : String) (s : List Char) : Bool := p.data.isSuffixOf s

/-- Link classification kinds returned by resolve_link_path. -/
inductive LinkType
  | external
  | anchor
  | absolute
  | relative
deriving DecidableEq

/-- Containing directory of a source file relative to the document
root: str(source_file.parent.relative_to(BETADOCS_ROOT)), with the
root marker "." mapped to the empty string. -/
def sourceDirOf (p : List Char) : List Char :=
  List.intercalate (str "/") (splitChar '/' p).dropLast

/-- Fragment stripping: url = link_url.split('#')[0]. -/
def stripFragment (u : List Char) : List Char := (splitChar '#' u).headD []

/-- Extension stripping: url = url.replace('.md', '').replace('.MD', ''). -/
def stripExt (u : List Char) : List Char := pyRemove (str ".MD") (pyRemove (str ".md") u)

/-- One step of the directory-stack collapsing loop in the "../"
branch of resolve_link_path: '..' pops the stack when non-empty,
'.' and empty segments are skipped, any other segment is pushed. -/
def collapseStep (acc : List (List Char)) (part : List Char) : List (List Char) :=
  if part = str ".." then acc.dropLast
  else if part = str "." ∨ part = [] then acc
  else acc ++ [part]

/-- Internal-reference resolution: the part of resolve_link_path after
the external/anchor checks and the extension stripping.  url is the
fragment-stripped, extension-stripped target; source_dir is the source
document's directory relative to the root ([] when at the root).
Mirrors the script line by line, including the fall-through of the
"./" branch (which strips the prefix but does not return, landing on
the two trailing checks of the function). -/
def resolveInternal (url source_dir : List Char) : Option (List Char) × LinkType :=
  if startsWithS "/docs/" url then
    (some (url.drop 6), LinkType.absolute)
  else if startsWithS "../" url || startsWithS "./" url || !(startsWithS "/" url) then
    if startsWithS "./" url then
      if startsWithS "/" (url.drop 2) then ((some ((url.drop 2).drop 1)), LinkType.absolute)
      else (some (url.drop 2), LinkType.relative)
    else if startsWithS "../" url then
      (some (List.intercalate (str "/")
        (List.foldl collapseStep
          (if source_dir = [] then [] else splitChar '/' source_dir)
          (splitChar '/' url))), LinkType.relative)
    else
      (some (if source_dir = [] then url else source_dir ++ str "/" ++ url), LinkType.relative)
  else if startsWithS "/" url then
    (some (url.drop 1), LinkType.absolute)
  else
    (some url, LinkType.relative)

/-- resolve_link_path(link_url, source_file): classification and
resolution of one raw link target.  The source file only enters
through its containing directory, which is passed here directly. -/
def resolve_link_path (link_url source_dir : List Char) : Option (List Char) × LinkType :=
  if startsWithS "http://" (stripFragment link_url)
      || startsWithS "https://" (stripFragment link_url)
      || startsWithS "mailto:" (stripFragment link_url) then
    (none, LinkType.external)
  else if startsWithS "#" (stripFragment link_url) then
    (none, LinkType.anchor)
  else
    resolveInternal (stripExt (stripFragment link_url)) source_dir

/-- Canonical path of a discovered file: the root-relative path with
'.md' occurrences removed and whitespace stripped, plus the (dead)
trailing-space trim of the script. -/
def canonicalOf (p : List Char) : List Char :=
  let r := pyStrip (pyRemove (str ".md") p)
  if endsWithS " " r then r.dropLast else r

/-- Alias keys registered in file_map for one discovered file. -/
def keysOf (p : List Char) : List (List Char) :=
  let r := canonicalOf p
  [r, str "/docs/" ++ r, str "docs/" ++ r] ++ (if startsWithS "/" r then [r.drop 1] else [])

/-- file_map construction: set of lookup keys registered while
scanning the document root (only key membership matters to the
script's lookups). -/
def fileMapKeys (ps : List (List Char)) : List (List Char) :=
  ps.foldl (fun acc p => acc ++ keysOf p) []

/-- check_file_exists(resolved_path): empty paths are rejected, then
the path and its two root-prefixed variants are looked up, then paths
already ending in '/README' fall to False (the truncation in the
script is dead code), and finally the directory-index fallback looks
up resolved_path + '/README'. -/
def check_file_exists (fm : List (List Char)) (resolved : List Char) : Bool :=
  if resolved = [] then false
  else if resolved ∈ fm ∨ (str "/docs/" ++ resolved) ∈ fm ∨ (str "docs/" ++ resolved) ∈ fm then
    true
  else if endsWithS "/README" resolved then false
  else if (resolved ++ str "/README") ∈ fm then true
  else false

/-- One inline link extracted from a document: display label, raw
target, 1-based line number of the match start. -/
structure RawLink where
  label : List Char
  target : List Char
  line : Nat
deriving DecidableEq

/-- Attempt to match the inline-link pattern at the very start of the
character stream, with the exact semantics of the regex used by the
script: a bracket, one or more non-bracket-close characters, a close
bracket, an open paren, one or more non-paren-close characters, a
close paren.  On success returns label, target, the remaining stream
after the match, and the number of characters consumed. -/
def tryMatch (cs : List Char) : Option (List Char × List Char × List Char × Nat) :=
  match cs with
  | '[' :: rest =>
    let lab := rest.takeWhile (fun c => c ≠ ']')
    if lab = [] then none
    else
      match rest.dropWhile (fun c => c ≠ ']') with
      | ']' :: '(' :: rest2 =>
        let tgt := rest2.takeWhile (fun c => c ≠ ')')
        if tgt = [] then none
        else
          match rest2.dropWhile (fun c => c ≠ ')') with
          | ')' :: rest3 => some (lab, tgt, rest3, lab.length + tgt.length + 4)
          | _ => none
      | _ => none
  | _ => none

/-- Left-to-right non-overlapping scan for the inline-link pattern,
like re.finditer: try to match at each position, and on a match resume
after its end.  The fuel starts at the length of the stream; every
recursive call consumes at least one character, so it never runs out.
Returns (label, target, start position) triples in document order. -/
def scanAux : Nat → List Char → Nat → List (List Char × List Char × Nat)
  | 0, _, _ => []
  | _, [], _ => []
  | Nat.succ fuel, c :: cs, pos =>
    match tryMatch (c :: cs) with
    | some (lab, tgt, rest, len) => (lab, tgt, pos) :: scanAux fuel rest (pos + len)
    | none => scanAux fuel cs (pos + 1)

/-- extract_links: all matches of the link pattern in document order,
with the line number computed as 1 + the number of newline characters
before the match start. -/
def extract_links (content : List Char) : List RawLink :=
  (scanAux content.length content 0).map
    (fun m => ⟨m.1, m.2.1, (content.take m.2.2).count '\n' + 1⟩)

/-- Validity status assigned to internal links. -/
inductive LStatus
  | ok
  | broken
deriving DecidableEq

/-- One link_info record of the scan loop. -/
structure LinkInfo where
  source : List Char
  text : List Char
  url : List Char
  resolved : Option (List Char)
  ltype : LinkType
  line : Nat
  status : Option LStatus
deriving DecidableEq

/-- Per-document entry of results['file_details']: either the normal
entry with its derived counts, or the error marker written when
reading the document raised. -/
inductive FileDetail
  | entry (total_links valid_links broken_links : Nat) (links : List LinkInfo)
  | errorEntry
deriving DecidableEq

/-- The process-scoped results aggregate. -/
structure Results where
  total_files : Nat
  total_links : Nat
  valid_links : Nat
  broken_links : List LinkInfo
  external_links : List LinkInfo
  anchor_links : List LinkInfo
  redundant_links : List (List Char × List LinkInfo)
  file_details : List (List Char × FileDetail)
deriving DecidableEq

/-- The initial (empty) results aggregate. -/
def initResults : Results := ⟨0, 0, 0, [], [], [], [], []⟩

/-- defaultdict(list) append: results['redundant_links'][key].append(info). -/
def addRed : List (List Char × List LinkInfo) → List Char → LinkInfo →
    List (List Char × List LinkInfo)
  | [], k, i => [(k, [i])]
  | (k0, is) :: rest, k, i =>
    if k0 = k then (k0, is ++ [i]) :: rest else (k0, is) :: addRed rest k i

/-- Lookup in the redundant-links grouping. -/
def lookupRed : List (List Char × List LinkInfo) → List Char → Option (List LinkInfo)
  | [], _ => none
  | (k, v) :: rest, t => if k = t then some v else lookupRed rest t

/-- The link_info record built for one extracted link. -/
def linkInfoOf (src : List Char) (l : RawLink) : LinkInfo :=
  { source := src, text := l.label, url := l.target,
    resolved := (resolve_link_path l.target (sourceDirOf src)).1,
    ltype := (resolve_link_path l.target (sourceDirOf src)).2,
    line := l.line, status := none }

/-- Status assignment for a link that passed the existence check. -/
def markOk (i : LinkInfo) : LinkInfo := { i with status := some LStatus.ok }

/-- Status assignment for a link that failed the existence check. -/
def markBroken (i : LinkInfo) : LinkInfo := { i with status := some LStatus.broken }

/-- The per-link body of the scan loop.  The accumulator pairs the
global results with the file_links list of the current document.
External and anchor links are recorded and skipped; other links are
checked for existence (Python truthiness rejects both a missing and an
empty resolved path) and recorded as valid or broken. -/
def step (fm : List (List Char)) (src : List Char)
    (acc : Results × List LinkInfo) (l : RawLink) : Results × List LinkInfo :=
  match (resolve_link_path l.target (sourceDirOf src)).2 with
  | LinkType.external =>
    ({ acc.1 with
        total_links := acc.1.total_links + 1,
        external_links := acc.1.external_links ++ [linkInfoOf src l] }, acc.2)
  | LinkType.anchor =>
    ({ acc.1 with
        total_links := acc.1.total_links + 1,
        anchor_links := acc.1.anchor_links ++ [linkInfoOf src l] }, acc.2)
  | _ =>
    if !(((resolve_link_path l.target (sourceDirOf src)).1.getD []).isEmpty)
        && check_file_exists fm ((resolve_link_path l.target (sourceDirOf src)).1.getD []) then
      ({ acc.1 with
          total_links := acc.1.total_links + 1,
          valid_links := acc.1.valid_links + 1,
          redundant_links := addRed acc.1.redundant_links
            ((resolve_link_path l.target (sourceDirOf src)).1.getD [])
            (markOk (linkInfoOf src l)) },
        acc.2 ++ [markOk (linkInfoOf src l)])
    else
      ({ acc.1 with
          total_links := acc.1.total_links + 1,
          broken_links := acc.1.broken_links ++ [markBroken (linkInfoOf src l)] },
        acc.2 ++ [markBroken (linkInfoOf src l)])

/-- The per-document body of the scan loop.  A document is a pair of
its root-relative path and an optional content (none models a read
that raised; the try/except of the script catches every exception and
records the error entry). -/
def processFile (fm : List (List Char)) (r : Results)
    (f : List Char × Option (List Char)) : Results :=
  match f.2 with
  | none =>
    { r with
        total_files := r.total_files + 1,
        file_details := r.file_details ++ [(f.1, FileDetail.errorEntry)] }
  | some content =>
    { ((extract_links content).foldl (step fm f.1)
        ({ r with total_files := r.total_files + 1 }, [])).1 with
        file_details :=
          ((extract_links content).foldl (step fm f.1)
            ({ r with total_files := r.total_files + 1 }, [])).1.file_details
          ++ [(f.1, FileDetail.entry
                ((extract_links content).foldl (step fm f.1)
                  ({ r with total_files := r.total_files + 1 }, [])).2.length
                (((extract_links content).foldl (step fm f.1)
                  ({ r with total_files := r.total_files + 1 }, [])).2.countP
                  (fun l => decide (l.status = some LStatus.ok)))
                (((extract_links content).foldl (step fm f.1)
                  ({ r with total_files := r.total_files + 1 }, [])).2.countP
                  (fun l => decide (l.status = some LStatus.broken)))
                ((extract_links content).foldl (step fm f.1)
                  ({ r with total_files := r.total_files + 1 }, [])).2)] }

/-- The complete scan: fold the per-document body over the (sorted)
document list, starting from the empty aggregate. -/
def runScan (fm : List (List Char)) (files : List (List Char × Option (List Char))) : Results :=
  files.foldl (processFile fm) initResults

/-- Report predicate: a target appears in the redundant-links section
iff its recorded valid-link list has length at least five. -/
def appearsRedundant (r : Results) (target : List Char) : Bool :=
  match lookupRed r.redundant_links target with
  | some links => decide (5 ≤ links.length)
  | none => false

/-- Lexicographic comparison of two character lists by code point,
matching Python string comparison for the sources being sorted. -/
def lexLe : List Char → List Char → Bool
  | [], _ => true
  | _ :: _, [] => false
  | a :: as, b :: bs => if a < b then true else if b < a then false else lexLe as bs

/-- Insertion into a lexicographically sorted list. -/
def insertSorted (x : List Char) : List (List Char) → List (List Char)
  | [] => [x]
  | y :: ys => if lexLe x y then x :: y :: ys else y :: insertSorted x ys

/-- Ascending lexicographic sort (insertion sort). -/
def sortStrs (xs : List (List Char)) : List (List Char) := xs.foldr insertSorted []

/-- Sources listed for a redundant target: sorted(set(sources))[:10]. -/
def listedSources (r : Results) (target : List Char) : List (List Char) :=
  match lookupRed r.redundant_links target with
  | some links => (sortStrs ((links.map (fun l => l.source)).dedup)).take 10
  | none => []

/-- Directory-stack collapsing exactly as the specification words it:
seeded from the source directory segments, a '..' segment pops the
stack (a no-op when the stack is already empty, never an error), '.'
and empty segments are skipped, and any other segment is pushed.  It
is compared against the fold performed inside resolve_link_path. -/
def specStackCollapse : List (List Char) → List (List Char) → List (List Char)
  | stack, [] => stack
  | stack, seg :: rest =>
    if seg = str ".." then specStackCollapse stack.dropLast rest
    else if seg = str "." ∨ seg = [] then specStackCollapse stack rest
    else specStackCollapse (stack ++ [seg]) rest

/-- The file_links list produced for one readable document, run from a
fresh accumulator (it does not depend on the global results state). -/
def fileLinksOf (fm : List (List Char)) (src content : List Char) : List LinkInfo :=
  ((extract_links content).foldl (step fm src) (initResults, [])).2

/-- The file_details entry produced for one document. -/
def detailOf (fm : List (List Char)) (f : List Char × Option (List Char)) : FileDetail :=
  match f.2 with
  | none => FileDetail.errorEntry
  | some content =>
    FileDetail.entry (fileLinksOf fm f.1 content).length
      ((fileLinksOf fm f.1 content).countP (fun l => decide (l.status = some LStatus.ok)))
      ((fileLinksOf fm f.1 content).countP (fun l => decide (l.status = some LStatus.broken)))
      (fileLinksOf fm f.1 content)

/-- Disposition invariant: every counted link lies in exactly one of
the four categories. -/
def balanced (r : Results) : Prop :=
  r.total_links
    = r.valid_links + r.broken_links.length + r.external_links.length + r.anchor_links.length

/-- Two results aggregates that agree on every link-level field, with
the left one having processed k more files. -/
def relOffset (k : Nat) (a b : Results) : Prop :=
  a.total_files = b.total_files + k
  ∧ a.total_links = b.total_links
  ∧ a.valid_links = b.valid_links
  ∧ a.broken_links = b.broken_links
  ∧ a.external_links = b.external_links
  ∧ a.anchor_links = b.anchor_links
  ∧ a.redundant_links = b.redundant_links

/-- Document tree of the end-to-end scenario: an empty root.md and a
sub/page.md holding the four links on its first line. -/
def filesE2E : List (List Char × Option (List Char)) :=
  [(str "root.md", some []),
   (str "sub/page.md", some (str "[a](../root)[b](missing)[c](https://example.com)[d](#top)"))]

/-- File map of the end-to-end scenario. -/
def fmE2E : List (List Char) := fileMapKeys [str "root.md", str "sub/page.md"]

/-- A document holding one link to target t, for the redundancy scenarios. -/
def srcT (n : String) : List Char × Option (List Char) := (str n, some (str "[x](t)"))

/-- File map for the five-source redundancy scenario. -/
def fmFive : List (List Char) :=
  fileMapKeys [str "a.md", str "b.md", str "c.md", str "d.md", str "e.md", str "t.md"]

/-- Five distinct documents, each linking once to t. -/
def filesFive : List (List Char × Option (List Char)) :=
  [srcT "a.md", srcT "b.md", srcT "c.md", srcT "d.md", srcT "e.md", (str "t.md", some [])]

/-- File map for the four-source redundancy scenarios. -/
def fmFour : List (List Char) :=
  fileMapKeys [str "a.md", str "b.md", str "c.md", str "d.md", str "t.md"]

/-- Four distinct documents, each linking once to t. -/
def filesFour : List (List Char × Option (List Char)) :=
  [srcT "a.md", srcT "b.md", srcT "c.md", srcT "d.md", (str "t.md", some [])]

/-- Four distinct documents producing five valid links to t (d.md
links it twice). -/
def filesFourDouble : List (List Char × Option (List Char)) :=
  [srcT "a.md", srcT "b.md", srcT "c.md",
   (str "d.md", some (str "[x](t)[y](t)")), (str "t.md", some [])]

/-- The fold inside the "../" branch computes exactly the stack
collapsing described by the specification. -/
theorem foldl_collapseStep_eq (segs : List (List Char)) (stack : List (List Char)) :
    List.foldl collapseStep stack segs = specStackCollapse stack segs := by
  induction segs generalizing stack with
  | nil => rfl
  | cons s rest ih =>
    have hstep : specStackCollapse stack (s :: rest)
        = specStackCollapse (collapseStep stack s) rest := by
      by_cases hd : s = str ".."
      · simp [specStackCollapse, collapseStep, hd]
      · by_cases he : s = str "." ∨ s = []
        · simp [specStackCollapse, collapseStep, hd, he]
        · simp [specStackCollapse, collapseStep, hd, he]
    rw [List.foldl_cons, hstep]
    exact ih (collapseStep stack s)

/-- file_map key sets accumulate per discovered file. -/
theorem fileMapKeys_eq_flatMap (ps : List (List Char)) :
    fileMapKeys ps = ps.flatMap keysOf := by
  have main : ∀ (qs : List (List Char)) (acc : List (List Char)),
      List.foldl (fun a p => a ++ keysOf p) acc qs = acc ++ qs.flatMap keysOf := by
    intro qs
    induction qs with
    | nil => intro acc; simp
    | cons q rest ih => intro acc; simp [ih, List.append_assoc]
  simpa using main ps []

/-- Every alias key generated for a discovered file is registered. -/
theorem mem_fileMapKeys (ps : List (List Char)) (p q : List Char)
    (hp : p ∈ ps) (hq : q ∈ keysOf p) : q ∈ fileMapKeys ps := by
  rw [fileMapKeys_eq_flatMap]
  exact List.mem_flatMap.mpr ⟨p, hp, hq⟩

/-- Claim C1 (code evaluation at the failing input): for the raw
target "#top" authored in sub/page.md, resolve_link_path does not
return kind anchor; it returns kind relative with resolved path
"sub/", because the anchor test inspects the fragment-stripped URL,
which can never contain the fragment marker. -/
theorem anchor_branch_dead_eval :
    resolve_link_path (str "#top") (str "sub") = (some (str "sub/"), LinkType.relative)
    ∧ (resolve_link_path (str "#top") (str "sub")).2 ≠ LinkType.anchor := by
  decide

/-- Claim C2 (code evaluation at the failing input): on the two-file
tree of the end-to-end scenario the audit produces 2 files, 4 links,
1 external link, 1 valid link, but 0 anchor links and 2 broken links
(the "#top" link is misclassified as relative, resolves to "sub/" and
is reported broken alongside "missing"), against the claimed 1 anchor
link and a single broken entry. -/
theorem end_to_end_code_eval :
    (runScan fmE2E filesE2E).total_files = 2
    ∧ (runScan fmE2E filesE2E).total_links = 4
    ∧ (runScan fmE2E filesE2E).external_links.length = 1
    ∧ (runScan fmE2E filesE2E).valid_links = 1
    ∧ (runScan fmE2E filesE2E).anchor_links.length = 0
    ∧ (runScan fmE2E filesE2E).broken_links.map (fun l => (l.source, l.url, l.line))
        = [(str "sub/page.md", str "missing", 1), (str "sub/page.md", str "#top", 1)] := by
  decide

/-- Claim C3 (counterexample): the "./"-prefixed target "./x" authored
in a document whose directory is "a" resolves to "x", not to "a/x" —
the source directory is never prepended in this branch. -/
theorem dot_branch_counterexample :
    resolve_link_path (str "./x") (str "a") = (some (str "x"), LinkType.relative)
    ∧ (resolve_link_path (str "./x") (str "a")).1 ≠ some (str "a/x") := by
  decide

/-- Claim C4 (counterexample): with four distinct source documents
producing five valid link occurrences on target t (d.md links it
twice), t does appear in the redundant-links section even though only
four distinct documents reference it. -/
theorem redundant_counterexample :
    appearsRedundant (runScan fmFour filesFourDouble) (str "t") = true
    ∧ ((((lookupRed (runScan fmFour filesFourDouble).redundant_links (str "t")).getD
          []).map (fun l => l.source)).dedup).length = 4 := by
  decide

/-- Claim C4 (amended): the redundancy threshold counts valid link
occurrences, not distinct source documents.  Five documents linking t
once each make it appear with exactly 5 listed sources; four documents
linking once each (four occurrences) leave it out; four documents
producing five occurrences make it appear. -/
theorem redundant_occurrence_threshold :
    appearsRedundant (runScan fmFive filesFive) (str "t") = true
    ∧ (listedSources (runScan fmFive filesFive) (str "t")).length = 5
    ∧ appearsRedundant (runScan fmFour filesFour) (str "t") = false
    ∧ appearsRedundant (runScan fmFour filesFourDouble) (str "t") = true
    ∧ ((lookupRed (runScan fmFour filesFourDouble).redundant_links (str "t")).getD []).length
        = 5 := by
  decide

/-- Claim C5 (counterexample): in the target "a.md.txt" the substring
".md" is not a trailing extension suffix, yet resolve_link_path
removes it, resolving to "a.txt" instead of leaving the target
untouched. -/
theorem ext_strip_counterexample :
    resolve_link_path (str "a.md.txt") [] = (some (str "a.txt"), LinkType.relative)
    ∧ str "a.txt" ≠ str "a.md.txt" := by
  decide

/-- Claim C6 (counterexample): with the index containing exactly the
document guide/README, the raw target "guide" authored in sub/page.md
resolves to "sub/guide", and the existence check rejects it — the
directory-index fallback only fires for sources whose resolved path is
"guide" itself. -/
theorem dir_fallback_counterexample :
    resolve_link_path (str "guide") (sourceDirOf (str "sub/page.md"))
      = (some (str "sub/guide"), LinkType.relative)
    ∧ check_file_exists (fileMapKeys [str "guide/README.md"]) (str "sub/guide") = false := by
  decide

/-- Claim C8 (counterexample): a root file named exactly ".md" is
registered with the empty canonical path, and the bare alias form of
that canonical path fails the existence check, because empty resolved
paths are rejected before any lookup. -/
theorem alias_exists_counterexample :
    str ".md" ∈ [str ".md"]
    ∧ canonicalOf (str ".md") = []
    ∧ check_file_exists (fileMapKeys [str ".md"]) (canonicalOf (str ".md")) = false := by
  decide

/-- Claim C3 (amended): for every target whose fragment-stripped,
extension-stripped form starts with "./" (and is not external, not
fragment-initial, not root-absolute, and whose remainder after the
prefix does not itself start with "/"), resolve_link_path returns kind
relative with the remainder verbatim — the source directory is never
prepended, whatever it is. -/
theorem dot_branch_verbatim (u src : List Char)
    (h1 : startsWithS "http://" (stripFragment u) = false)
    (h2 : startsWithS "https://" (stripFragment u) = false)
    (h3 : startsWithS "mailto:" (stripFragment u) = false)
    (h4 : startsWithS "#" (stripFragment u) = false)
    (h5 : startsWithS "/docs/" (stripExt (stripFragment u)) = false)
    (h6 : startsWithS "./" (stripExt (stripFragment u)) = true)
    (h7 : startsWithS "/" ((stripExt (stripFragment u)).drop 2) = false) :
    resolve_link_path u src
      = (some ((stripExt (stripFragment u)).drop 2), LinkType.relative) := by
  simp [resolve_link_path, resolveInternal, h1, h2, h3, h4, h5, h6, h7]

/-- Witness for dot_branch_verbatim at target "./x" from directory "a". -/
theorem dot_branch_verbatim_witness :
    startsWithS "./" (stripExt (stripFragment (str "./x"))) = true
    ∧ resolve_link_path (str "./x") (str "a")
        = (some ((stripExt (stripFragment (str "./x"))).drop 2), LinkType.relative) :=
  ⟨by decide, dot_branch_verbatim (str "./x") (str "a") (by decide) (by decide) (by decide)
    (by decide) (by decide) (by decide) (by decide)⟩

/-- Claim C5 (amended): extension stripping removes every occurrence
of the exact substrings ".md" and then ".MD" anywhere in the
fragment-stripped target, not only a trailing suffix, and no other
casing is removed; on a bare relative target the resolver then works
with that fully stripped form.  In particular "a.md.txt" is stripped
to "a.txt" while "x.Md" is left untouched. -/
theorem ext_strip_everywhere (u src : List Char)
    (h1 : startsWithS "http://" (stripFragment u) = false)
    (h2 : startsWithS "https://" (stripFragment u) = false)
    (h3 : startsWithS "mailto:" (stripFragment u) = false)
    (h4 : startsWithS "#" (stripFragment u) = false)
    (h5 : startsWithS "/docs/" (stripExt (stripFragment u)) = false)
    (h6 : startsWithS "./" (stripExt (stripFragment u)) = false)
    (h7 : startsWithS "../" (stripExt (stripFragment u)) = false)
    (h8 : startsWithS "/" (stripExt (stripFragment u)) = false) :
    resolve_link_path u src
      = (some (if src = [] then stripExt (stripFragment u)
               else src ++ str "/" ++ stripExt (stripFragment u)), LinkType.relative)
    ∧ stripExt (str "a.md.txt") = str "a.txt"
    ∧ stripExt (str "x.Md") = str "x.Md" := by
  refine ⟨?_, by decide, by decide⟩
  simp [resolve_link_path, resolveInternal, h1, h2, h3, h4, h5, h6, h7, h8]

/-- Witness for ext_strip_everywhere at target "x.md.y" from directory "d". -/
theorem ext_strip_everywhere_witness :
    startsWithS "../" (stripExt (stripFragment (str "x.md.y"))) = false
    ∧ (resolve_link_path (str "x.md.y") (str "d")
        = (some (if (str "d") = [] then stripExt (stripFragment (str "x.md.y"))
                 else (str "d") ++ str "/" ++ stripExt (stripFragment (str "x.md.y"))),
           LinkType.relative)
      ∧ stripExt (str "a.md.txt") = str "a.txt"
      ∧ stripExt (str "x.Md") = str "x.Md") :=
  ⟨by decide, ext_strip_everywhere (str "x.md.y") (str "d") (by decide) (by decide) (by decide)
    (by decide) (by decide) (by decide) (by decide) (by decide)⟩

/-- Claim C6 (amended): if the index registers a document with
canonical path guide/README, then the raw target "guide" authored in a
source document at the document root resolves to "guide" and passes
the existence check through the directory-index fallback; sources in
subdirectories prepend their directory and generally fail (see the
counterexample). -/
theorem dir_fallback_root_source (fm : List (List Char))
    (h : str "guide/README" ∈ fm) :
    resolve_link_path (str "guide") [] = (some (str "guide"), LinkType.relative)
    ∧ check_file_exists fm (str "guide") = true := by
  refine ⟨by decide, ?_⟩
  unfold check_file_exists
  rw [if_neg (by decide : ¬(str "guide" = ([] : List Char)))]
  by_cases h2 : str "guide" ∈ fm ∨ (str "/docs/" ++ str "guide") ∈ fm
      ∨ (str "docs/" ++ str "guide") ∈ fm
  · rw [if_pos h2]
  · rw [if_neg h2]
    have h3 : (str "guide" ++ str "/README") = str "guide/README" := by decide
    simp only [show endsWithS "/README" (str "guide") = false from by decide,
      Bool.false_eq_true, if_false, h3]
    rw [if_pos h]

/-- Witness for dir_fallback_root_source on the one-document index. -/
theorem dir_fallback_root_source_witness :
    str "guide/README" ∈ fileMapKeys [str "guide/README.md"]
    ∧ (resolve_link_path (str "guide") [] = (some (str "guide"), LinkType.relative)
      ∧ check_file_exists (fileMapKeys [str "guide/README.md"]) (str "guide") = true) :=
  ⟨by decide, dir_fallback_root_source (fileMapKeys [str "guide/README.md"]) (by decide)⟩

/-- Claim C7 (confirmed): for every target whose fragment-stripped,
extension-stripped form starts with "../" (and is not external, not
fragment-initial, not root-absolute), resolution is exactly the
segment-wise directory-stack collapsing of the specification, seeded
from the source directory; in particular from source directory "a/b/c"
the target "../../x" resolves to "a/x" and "../../../../x" over-pops
to "x". -/
theorem dotdot_stack_collapse (u src : List Char)
    (h1 : startsWithS "http://" (stripFragment u) = false)
    (h2 : startsWithS "https://" (stripFragment u) = false)
    (h3 : startsWithS "mailto:" (stripFragment u) = false)
    (h4 : startsWithS "#" (stripFragment u) = false)
    (h5 : startsWithS "/docs/" (stripExt (stripFragment u)) = false)
    (h6 : startsWithS "./" (stripExt (stripFragment u)) = false)
    (h7 : startsWithS "../" (stripExt (stripFragment u)) = true) :
    resolve_link_path u src
      = (some (List.intercalate (str "/")
          (specStackCollapse (if src = [] then [] else splitChar '/' src)
            (splitChar '/' (stripExt (stripFragment u))))), LinkType.relative)
    ∧ resolve_link_path (str "../../x") (str "a/b/c")
        = (some (str "a/x"), LinkType.relative)
    ∧ resolve_link_path (str "../../../../x") (str "a/b/c")
        = (some (str "x"), LinkType.relative) := by
  refine ⟨?_, by decide, by decide⟩
  simp [resolve_link_path, resolveInternal, h1, h2, h3, h4, h5, h6, h7,
    foldl_collapseStep_eq]

/-- Witness for dotdot_stack_collapse at target "../../x" from "a/b/c". -/
theorem dotdot_stack_collapse_witness :
    startsWithS "../" (stripExt (stripFragment (str "../../x"))) = true
    ∧ (resolve_link_path (str "../../x") (str "a/b/c")
        = (some (List.intercalate (str "/")
            (specStackCollapse (if (str "a/b/c") = [] then [] else splitChar '/' (str "a/b/c"))
              (splitChar '/' (stripExt (stripFragment (str "../../x")))))), LinkType.relative)
      ∧ resolve_link_path (str "../../x") (str "a/b/c")
          = (some (str "a/x"), LinkType.relative)
      ∧ resolve_link_path (str "../../../../x") (str "a/b/c")
          = (some (str "x"), LinkType.relative)) :=
  ⟨by decide, dotdot_stack_collapse (str "../../x") (str "a/b/c") (by decide) (by decide)
    (by decide) (by decide) (by decide) (by decide) (by decide)⟩

/-- Claim C8 (amended): for every document registered in the index,
the root-prefixed alias forms of its canonical path always pass the
existence check, and the bare canonical path passes whenever it is
non-empty (the bare form of the degenerate empty canonical path is
rejected, see the counterexample). -/
theorem alias_exists (ps : List (List Char)) (p : List Char) (hp : p ∈ ps) :
    check_file_exists (fileMapKeys ps) (str "/docs/" ++ canonicalOf p) = true
    ∧ check_file_exists (fileMapKeys ps) (str "docs/" ++ canonicalOf p) = true
    ∧ (canonicalOf p = []
        ∨ check_file_exists (fileMapKeys ps) (canonicalOf p) = true) := by
  have hmem1 : canonicalOf p ∈ keysOf p := by simp [keysOf]
  have hmem2 : (str "/docs/" ++ canonicalOf p) ∈ keysOf p := by simp [keysOf]
  have hmem3 : (str "docs/" ++ canonicalOf p) ∈ keysOf p := by simp [keysOf]
  have hne2 : (str "/docs/" ++ canonicalOf p) ≠ [] := by
    rw [show str "/docs/" = '/' :: str "docs/" from by decide]
    simp
  have hne3 : (str "docs/" ++ canonicalOf p) ≠ [] := by
    rw [show str "docs/" = 'd' :: str "ocs/" from by decide]
    simp
  refine ⟨?_, ?_, ?_⟩
  · unfold check_file_exists
    rw [if_neg hne2, if_pos (Or.inl (mem_fileMapKeys ps p _ hp hmem2))]
  · unfold check_file_exists
    rw [if_neg hne3, if_pos (Or.inl (mem_fileMapKeys ps p _ hp hmem3))]
  · by_cases hc : canonicalOf p = []
    · exact Or.inl hc
    · refine Or.inr ?_
      unfold check_file_exists
      rw [if_neg hc, if_pos (Or.inl (mem_fileMapKeys ps p _ hp hmem1))]

/-- Witness for alias_exists on the one-document index of a.md. -/
theorem alias_exists_witness :
    str "a.md" ∈ [str "a.md"]
    ∧ (check_file_exists (fileMapKeys [str "a.md"]) (str "/docs/" ++ canonicalOf (str "a.md"))
          = true
      ∧ check_file_exists (fileMapKeys [str "a.md"]) (str "docs/" ++ canonicalOf (str "a.md"))
          = true
      ∧ (canonicalOf (str "a.md") = []
          ∨ check_file_exists (fileMapKeys [str "a.md"]) (canonicalOf (str "a.md")) = true)) :=
  ⟨by decide, alias_exists [str "a.md"] (str "a.md") (by decide)⟩

/-- Each per-link step preserves the disposition invariant: the total
counter and exactly one of the four category tallies grow by one. -/
theorem step_balanced (fm : List (List Char)) (src : List Char) (l : RawLink)
    (acc : Results × List LinkInfo) (h : balanced acc.1) :
    balanced (step fm src acc l).1 := by
  unfold balanced at h ⊢
  unfold step
  split
  · simp [h]
    omega
  · simp [h]
    omega
  · split
    · simp [h]
      omega
    · simp [h]
      omega

/-- The per-link fold preserves the disposition invariant. -/
theorem foldl_step_balanced (fm : List (List Char)) (src : List Char) (links : List RawLink) :
    ∀ acc : Results × List LinkInfo, balanced acc.1
      → balanced (links.foldl (step fm src) acc).1 := by
  induction links with
  | nil => intro acc h; exact h
  | cons l rest ih =>
    intro acc h
    simp only [List.foldl_cons]
    exact ih _ (step_balanced fm src l acc h)

/-- The per-document body preserves the disposition invariant. -/
theorem processFile_balanced (fm : List (List Char))
    (f : List Char × Option (List Char)) (r : Results) (h : balanced r) :
    balanced (processFile fm r f) := by
  rcases f with ⟨name, _ | content⟩
  · simpa [processFile, balanced] using h
  · have hstart : balanced ({ r with total_files := r.total_files + 1 } : Results) := h
    have hfold := foldl_step_balanced fm name (extract_links content)
      ({ r with total_files := r.total_files + 1 }, []) hstart
    simpa [processFile, balanced] using hfold

/-- Claim C10 (confirmed): after a complete run every extracted link
is counted in exactly one disposition category, so the total link
count equals the valid count plus the numbers of broken, external and
anchor links. -/
theorem total_links_partition (fm : List (List Char))
    (files : List (List Char × Option (List Char))) :
    (runScan fm files).total_links
      = (runScan fm files).valid_links + (runScan fm files).broken_links.length
        + (runScan fm files).external_links.length
        + (runScan fm files).anchor_links.length := by
  have main : ∀ (fs : List (List Char × Option (List Char))) (r : Results),
      balanced r → balanced (fs.foldl (processFile fm) r) := by
    intro fs
    induction fs with
    | nil => intro r h; exact h
    | cons f rest ih =>
      intro r h
      simp only [List.foldl_cons]
      exact ih _ (processFile_balanced fm f r h)
  exact main files initResults rfl

/-- The file_links list built by the per-link fold does not depend on
the global results component of the accumulator. -/
theorem foldl_step_snd (fm : List (List Char)) (src : List Char) (links : List RawLink) :
    ∀ (r1 r2 : Results) (fl : List LinkInfo),
      (links.foldl (step fm src) (r1, fl)).2 = (links.foldl (step fm src) (r2, fl)).2 := by
  induction links with
  | nil => intro r1 r2 fl; rfl
  | cons l rest ih =>
    intro r1 r2 fl
    simp only [List.foldl_cons]
    unfold step
    split
    · exact ih _ _ _
    · exact ih _ _ _
    · split
      · exact ih _ _ _
      · exact ih _ _ _

/-- The per-link fold never touches the per-document breakdown. -/
theorem foldl_step_details (fm : List (List Char)) (src : List Char) (links : List RawLink) :
    ∀ (r : Results) (fl : List LinkInfo),
      ((links.foldl (step fm src) (r, fl)).1).file_details = r.file_details := by
  induction links with
  | nil => intro r fl; rfl
  | cons l rest ih =>
    intro r fl
    simp only [List.foldl_cons]
    unfold step
    split
    · exact ih _ _
    · exact ih _ _
    · split
      · exact ih _ _
      · exact ih _ _

/-- The per-document body appends exactly one breakdown entry, whose
content depends only on the document itself and the file map. -/
theorem processFile_details (fm : List (List Char)) (r : Results)
    (f : List Char × Option (List Char)) :
    (processFile fm r f).file_details = r.file_details ++ [(f.1, detailOf fm f)] := by
  rcases f with ⟨name, _ | content⟩
  · rfl
  · show (processFile fm r (name, some content)).file_details = _
    unfold processFile
    have h1 := foldl_step_details fm name (extract_links content)
      ({ r with total_files := r.total_files + 1 }) []
    have h2 := foldl_step_snd fm name (extract_links content)
      ({ r with total_files := r.total_files + 1 }) initResults []
    simp only [detailOf, fileLinksOf]
    rw [h1, h2]

/-- The complete scan records one breakdown entry per document, in
order, each computed from that document alone. -/
theorem runFrom_details (fm : List (List Char))
    (files : List (List Char × Option (List Char))) :
    ∀ r : Results,
      (files.foldl (processFile fm) r).file_details
        = r.file_details ++ files.map (fun f => (f.1, detailOf fm f)) := by
  induction files with
  | nil => intro r; simp
  | cons f rest ih =>
    intro r
    simp only [List.foldl_cons, List.map_cons]
    rw [ih, processFile_details]
    simp

/-- Each per-link step acts identically on two aggregates that agree
on every link-level field, and keeps the file-count offset. -/
theorem step_relOffset (fm : List (List Char)) (src : List Char) (l : RawLink) (k : Nat)
    (a b : Results × List LinkInfo) (hr : relOffset k a.1 b.1) (hl : a.2 = b.2) :
    relOffset k (step fm src a l).1 (step fm src b l).1
      ∧ (step fm src a l).2 = (step fm src b l).2 := by
  obtain ⟨h1, h2, h3, h4, h5, h6, h7⟩ := hr
  unfold step
  split
  · exact ⟨⟨h1, by simp [h2], h3, h4, by simp [h5], h6, h7⟩, hl⟩
  · exact ⟨⟨h1, by simp [h2], h3, h4, h5, by simp [h6], h7⟩, hl⟩
  · split
    · exact ⟨⟨h1, by simp [h2], by simp [h3], h4, h5, h6, by simp [h7]⟩, by simp [hl]⟩
    · exact ⟨⟨h1, by simp [h2], h3, by simp [h4], h5, h6, h7⟩, by simp [hl]⟩

/-- The per-link fold preserves the agreement of two aggregates. -/
theorem foldl_step_relOffset (fm : List (List Char)) (src : List Char)
    (links : List RawLink) (k : Nat) :
    ∀ (a b : Results × List LinkInfo), relOffset k a.1 b.1 → a.2 = b.2
      → relOffset k (links.foldl (step fm src) a).1 (links.foldl (step fm src) b).1 := by
  induction links with
  | nil => intro a b hr hl; exact hr
  | cons l rest ih =>
    intro a b hr hl
    simp only [List.foldl_cons]
    obtain ⟨hr2, hl2⟩ := step_relOffset fm src l k a b hr hl
    exact ih _ _ hr2 hl2

/-- The per-document body preserves the agreement of two aggregates. -/
theorem processFile_relOffset (fm : List (List Char))
    (f : List Char × Option (List Char)) (k : Nat) (r1 r2 : Results)
    (h : relOffset k r1 r2) : relOffset k (processFile fm r1 f) (processFile fm r2 f) := by
  obtain ⟨h1, h2, h3, h4, h5, h6, h7⟩ := h
  rcases f with ⟨name, _ | content⟩
  · exact ⟨by show r1.total_files + 1 = r2.total_files + 1 + k; omega, h2, h3, h4, h5, h6, h7⟩
  · have hstart : relOffset k ({ r1 with total_files := r1.total_files + 1 } : Results)
        ({ r2 with total_files := r2.total_files + 1 } : Results) :=
      ⟨by show r1.total_files + 1 = r2.total_files + 1 + k; omega, h2, h3, h4, h5, h6, h7⟩
    have hfold := foldl_step_relOffset fm name (extract_links content) k
      ({ r1 with total_files := r1.total_files + 1 }, [])
      ({ r2 with total_files := r2.total_files + 1 }, []) hstart rfl
    have hsnd := foldl_step_snd fm name (extract_links content)
      ({ r1 with total_files := r1.total_files + 1 })
      ({ r2 with total_files := r2.total_files + 1 }) []
    obtain ⟨g1, g2, g3, g4, g5, g6, g7⟩ := hfold
    exact ⟨g1, g2, g3, g4, g5, g6, g7⟩

/-- The whole scan preserves the agreement of two aggregates. -/
theorem runFrom_relOffset (fm : List (List Char))
    (files : List (List Char × Option (List Char))) (k : Nat) :
    ∀ (r1 r2 : Results), relOffset k r1 r2
      → relOffset k (files.foldl (processFile fm) r1) (files.foldl (processFile fm) r2) := by
  induction files with
  | nil => intro r1 r2 h; exact h
  | cons f rest ih =>
    intro r1 r2 h
    simp only [List.foldl_cons]
    exact ih _ _ (processFile_relOffset fm f k r1 r2 h)

/-- Claim C9 (confirmed): a document whose read raises is recorded in
the breakdown with the error marker and an empty link list, in its
position, while every other document's breakdown entry and every
link-level field of the aggregate are exactly those of the run without
the unreadable document; only the file counter grows by one.  The scan
is total: it never aborts. -/
theorem unreadable_file_isolated (fm : List (List Char))
    (before after : List (List Char × Option (List Char))) (name : List Char) :
    (runScan fm (before ++ (name, none) :: after)).file_details
      = (runScan fm before).file_details
        ++ (name, FileDetail.errorEntry) :: (runScan fm after).file_details
    ∧ (runScan fm (before ++ (name, none) :: after)).total_files
        = (runScan fm (before ++ after)).total_files + 1
    ∧ (runScan fm (before ++ (name, none) :: after)).total_links
        = (runScan fm (before ++ after)).total_links
    ∧ (runScan fm (before ++ (name, none) :: after)).valid_links
        = (runScan fm (before ++ after)).valid_links
    ∧ (runScan fm (before ++ (name, none) :: after)).broken_links
        = (runScan fm (before ++ after)).broken_links
    ∧ (runScan fm (before ++ (name, none) :: after)).external_links
        = (runScan fm (before ++ after)).external_links
    ∧ (runScan fm (before ++ (name, none) :: after)).anchor_links
        = (runScan fm (before ++ after)).anchor_links
    ∧ (runScan fm (before ++ (name, none) :: after)).redundant_links
        = (runScan fm (before ++ after)).redundant_links := by
  constructor
  · have d1 := runFrom_details fm (before ++ (name, none) :: after) initResults
    have d2 := runFrom_details fm before initResults
    have d3 := runFrom_details fm after initResults
    simp only [runScan]
    rw [d1, d2, d3]
    simp [detailOf, initResults]
  · have hsplit : runScan fm (before ++ (name, none) :: after)
        = after.foldl (processFile fm)
            (processFile fm (before.foldl (processFile fm) initResults) (name, none)) := by
      simp [runScan, List.foldl_append]
    have hsplit2 : runScan fm (before ++ after)
        = after.foldl (processFile fm) (before.foldl (processFile fm) initResults) := by
      simp [runScan, List.foldl_append]
    have hrel : relOffset 1
        (processFile fm (before.foldl (processFile fm) initResults) (name, none))
        (before.foldl (processFile fm) initResults) :=
      ⟨rfl, rfl, rfl, rfl, rfl, rfl, rfl⟩
    have hmain := runFrom_relOffset fm after 1 _ _ hrel
    rw [hsplit, hsplit2]
    exact hmain

end Audit
